import Mathlib

/-
Verification of the score extraction and normalization core of
src/frontend/static/app.js (quality_evaluator frontend).

Modelling conventions:
- JavaScript / JSON values are represented by the inductive type `Json`;
  `Option Json` is used where a value may also be `undefined` (`none`).
- JavaScript numbers are modelled as exact rationals. (IEEE-754 rounding,
  NaN and Infinity are outside this model; none of the verified claims
  depends on them, and NaN can never flow out of the modelled functions
  because `Number.isNaN` guards the only NaN source, `parseFloat`.)
- A function of the source that can throw is given the return type
  `Except Unit _`; `.error ()` marks a thrown TypeError.
- Builtins used by the source (`parseFloat`, `JSON.parse`, `String.prototype`
  methods, `Object.entries`, the two regex literals and the fenced-block
  regex) are modelled explicitly below, following the ECMAScript semantics
  of each builtin on the inputs the source can feed them.
-/

namespace QualityEval

/-- JSON / JavaScript values (numbers as exact rationals, see header note).
Object members are kept in property order. -/
inductive Json where
  | null
  | bool (b : Bool)
  | num (q : ℚ)
  | str (s : String)
  | arr (elems : List Json)
  | obj (members : List (String × Json))

/-- CanonicalScore: the value set `extractScore` / `normalizeScoreValue`
return in the source: `null` (unknown), the strings `'PASS'` / `'FAIL'`,
or a number. -/
inductive CanonicalScore where
  | unknown
  | pass
  | fail
  | num (v : ℚ)
deriving DecidableEq

/-- JavaScript truthiness of a value (`Boolean(v)`). -/
def jsTruthy : Json → Bool
  | Json.null => false
  | Json.bool b => b
  | Json.num q => !(decide (q = 0))
  | Json.str s => !(decide (s = ""))
  | Json.arr _ => true
  | Json.obj _ => true

/-- Truthiness where `none` stands for `undefined`. -/
def jsTruthyOpt : Option Json → Bool
  | none => false
  | some j => jsTruthy j

/-- JavaScript `a || b` over possibly-undefined values. -/
def jsOr (a b : Option Json) : Option Json :=
  if jsTruthyOpt a then a else b

/-- First member of an object member list bound to `key` (JS objects cannot
hold duplicate keys, so first-match lookup agrees with JS property lookup). -/
def lookupMember : List (String × Json) → String → Option Json
  | [], _ => none
  | kv :: rest, key => if kv.1 = key then some kv.2 else lookupMember rest key

/-- Property access `j[k]` for the (non-index, non-length) string keys the
source reads; `none` is `undefined`.  Only plain objects carry such
properties; primitives and arrays yield `undefined` for them. -/
def jsGetProp (j : Json) (k : String) : Option Json :=
  match j with
  | Json.obj kvs => lookupMember kvs k
  | _ => none

/-- Lowercasing of `String.prototype.toLowerCase` (ASCII range; the full
Unicode case map is outside the model). -/
def strToLower (s : String) : String := String.mk (s.toList.map Char.toLower)

/-- Whitespace class of the JS regex `\s` and of `parseFloat` skipping
(ASCII whitespace plus no-break space; further exotic Unicode space code
points are omitted from the model). -/
def jsWhitespace (c : Char) : Bool :=
  c = ' ' || c = '\t' || c = '\n' || c = '\r' || c = '\x0b' || c = '\x0c' || c = '\u00A0'

/-- Numeric value of a digit string. -/
def digitsToNat (l : List Char) : Nat :=
  l.foldl (fun a c => a * 10 + (c.toNat - 48)) 0

/-- Rational value of an integer part / fraction part digit pair:
the number `ip.fp` as the exact rational
`(ip * 10 ^ |fp| + fp) / 10 ^ |fp|`. -/
def mantissaVal (ip fp : List Char) : ℚ :=
  mkRat ((digitsToNat ip * 10 ^ fp.length + digitsToNat fp : Nat) : Int) (10 ^ fp.length)

/-- Scale by a power of ten given as an integer exponent. -/
def scalePowTen (q : ℚ) (e : Int) : ℚ :=
  if 0 ≤ e then mkRat (q.num * ((10 ^ e.toNat : Nat) : Int)) q.den
  else mkRat q.num (q.den * 10 ^ (-e).toNat)

/-- Model of the builtin `parseFloat`: skip leading whitespace, optional
sign, then the longest decimal-literal prefix (digits, optional fraction,
optional exponent); `none` models the NaN result when no numeric prefix
exists.  (`Infinity` literals are outside the rational model.) -/
def jsParseFloat (s : String) : Option ℚ :=
  let l0 := s.toList.dropWhile jsWhitespace
  let sgn := match l0 with
    | '-' :: t => (true, t)
    | '+' :: t => (false, t)
    | _ => (false, l0)
  let neg := sgn.1
  let ipp := sgn.2.span Char.isDigit
  let ip := ipp.1
  let fpp := match ipp.2 with
    | '.' :: t => t.span Char.isDigit
    | _ => ([], ipp.2)
  let fp := fpp.1
  if ip.isEmpty && fp.isEmpty then none
  else
    let rest := if (ipp.2.headD ' ') = '.' then fpp.2 else ipp.2
    let ex : Int := match rest with
      | c :: t =>
        if c = 'e' || c = 'E' then
          match t with
          | '-' :: u => (if (u.takeWhile Char.isDigit).isEmpty then 0 else -(digitsToNat (u.takeWhile Char.isDigit) : Int))
          | '+' :: u => (if (u.takeWhile Char.isDigit).isEmpty then 0 else (digitsToNat (u.takeWhile Char.isDigit) : Int))
          | _ => (if (t.takeWhile Char.isDigit).isEmpty then 0 else (digitsToNat (t.takeWhile Char.isDigit) : Int))
        else 0
      | [] => 0
    let v := scalePowTen (mantissaVal ip fp) ex
    some (if neg then -v else v)

/-- ScoreNormalizer: `normalizeScoreValue` (app.js lines 328-339).
`none` is `undefined`. -/
def normalizeScoreValue (value : Option Json) : CanonicalScore :=
  match value with
  | none => CanonicalScore.unknown
  | some Json.null => CanonicalScore.unknown
  | some (Json.num q) => CanonicalScore.num q
  | some (Json.str s) =>
    if strToLower s = "pass" then CanonicalScore.pass
    else if strToLower s = "fail" then CanonicalScore.fail
    else
      match jsParseFloat s with
      | some v => CanonicalScore.num v
      | none => CanonicalScore.unknown
  | some _ => CanonicalScore.unknown

/-- PresentationMapper bucket: `getScoreClass` (app.js lines 455-463). -/
def getScoreClass : CanonicalScore → String
  | CanonicalScore.unknown => "score-na"
  | CanonicalScore.pass => "score-pass"
  | CanonicalScore.fail => "score-fail"
  | CanonicalScore.num _ => "score-gradient"

/-- Hue used by `getScoreStyle` (app.js lines 467-468):
`(Math.max(0, Math.min(5, score)) / 5) * 120`. -/
def scoreHue (v : ℚ) : ℚ :=
  (max 0 (min 5 v)) / 5 * 120

/-- Decimal rendering of a rational for the style string (JS float printing
is abstracted; theorems about the hue use `scoreHue` directly). -/
def ratToString (q : ℚ) : String :=
  if q.den = 1 then toString q.num else toString q.num ++ "/" ++ toString q.den

/-- PresentationMapper color: `getScoreStyle` (app.js lines 465-471). -/
def getScoreStyle : CanonicalScore → String
  | CanonicalScore.num v =>
      "style=\"--score-color: hsl(" ++ ratToString (scoreHue v) ++ ", 70%, 50%)\""
  | _ => ""

/-- Model of `Number.prototype.toFixed(1)`: one decimal digit, rounding to
nearest with ties away from zero, per the ECMAScript algorithm.  The
integer scaled by ten is `floor(|q| * 10 + 1/2)`, computed here on the
reduced numerator and denominator as `(20 * |num| + den) / (2 * den)` in
natural-number (floor) division. -/
def jsToFixed1 (q : ℚ) : String :=
  let sign := if q.num < 0 then "-" else ""
  let n : Nat := (20 * q.num.natAbs + q.den) / (2 * q.den)
  sign ++ toString (n / 10) ++ "." ++ toString (n % 10)

/-- PresentationMapper label: `formatScore` (app.js lines 473-479). -/
def formatScore : CanonicalScore → String
  | CanonicalScore.unknown => "N/A"
  | CanonicalScore.pass => "✓ PASS"
  | CanonicalScore.fail => "✗ FAIL"
  | CanonicalScore.num v => jsToFixed1 v

/-- JSON whitespace (the only four code points `JSON.parse` skips). -/
def jsonWs (c : Char) : Bool :=
  c = ' ' || c = '\t' || c = '\n' || c = '\r'

/-- Drop leading JSON whitespace. -/
def skipWs (l : List Char) : List Char := l.dropWhile jsonWs

/-- Left brace character (written by code point to keep braces out of the
source text of string literals). -/
def lbrace : Char := Char.ofNat 123

/-- Right brace character. -/
def rbrace : Char := Char.ofNat 125

/-- Backtick character. -/
def btick : Char := Char.ofNat 96

/-- Hex digit value. -/
def hexVal (c : Char) : Option Nat :=
  if c.isDigit then some (c.toNat - 48)
  else if 'a' ≤ c && c ≤ 'f' then some (c.toNat - 87)
  else if 'A' ≤ c && c ≤ 'F' then some (c.toNat - 70)
  else none

/-- Body of a JSON string literal after the opening quote: returns the
decoded string and the text after the closing quote.  Escapes follow the
JSON grammar; `\u` escapes denoting UTF-16 surrogates are outside the model
(rejected), and literal control characters are invalid as in JSON. -/
def parseStrBody : List Char → List Char → Option (String × List Char)
  | [], _ => none
  | c :: rest, acc =>
    if c = '"' then some (String.mk acc.reverse, rest)
    else if c = '\\' then
      match rest with
      | [] => none
      | e :: rest2 =>
        if e = '"' then parseStrBody rest2 ('"' :: acc)
        else if e = '\\' then parseStrBody rest2 ('\\' :: acc)
        else if e = '/' then parseStrBody rest2 ('/' :: acc)
        else if e = 'b' then parseStrBody rest2 ('\x08' :: acc)
        else if e = 'f' then parseStrBody rest2 ('\x0c' :: acc)
        else if e = 'n' then parseStrBody rest2 ('\n' :: acc)
        else if e = 'r' then parseStrBody rest2 ('\r' :: acc)
        else if e = 't' then parseStrBody rest2 ('\t' :: acc)
        else if e = 'u' then
          match rest2 with
          | h1 :: h2 :: h3 :: h4 :: rest3 =>
            match hexVal h1, hexVal h2, hexVal h3, hexVal h4 with
            | some a, some b, some c3, some d =>
              let code := ((a * 16 + b) * 16 + c3) * 16 + d
              if code < 55296 || 57343 < code then
                parseStrBody rest3 (Char.ofNat code :: acc)
              else none
            | _, _, _, _ => none
          | _ => none
        else none
    else if c.toNat < 32 then none
    else parseStrBody rest (c :: acc)

/-- A JSON number token (strict JSON grammar): value and remaining text. -/
def parseNumJson (l : List Char) : Option (ℚ × List Char) :=
  let sgn := match l with
    | '-' :: t => (true, t)
    | _ => (false, l)
  let neg := sgn.1
  let ipRes : Option (List Char × List Char) :=
    match sgn.2 with
    | '0' :: t => some (['0'], t)
    | c :: t =>
      if c.isDigit then some ((c :: t).span Char.isDigit) else none
    | [] => none
  match ipRes with
  | none => none
  | some (ip, l2) =>
    let fpRes : Option (List Char × List Char) :=
      match l2 with
      | '.' :: t =>
        let fp := t.takeWhile Char.isDigit
        if fp.isEmpty then none else some (fp, t.dropWhile Char.isDigit)
      | _ => some ([], l2)
    match fpRes with
    | none => none
    | some (fp, l3) =>
      let exRes : Option (Int × List Char) :=
        match l3 with
        | c :: t =>
          if c = 'e' || c = 'E' then
            match t with
            | '-' :: u =>
              (if (u.takeWhile Char.isDigit).isEmpty then none
               else some (-(digitsToNat (u.takeWhile Char.isDigit) : Int), u.dropWhile Char.isDigit))
            | '+' :: u =>
              (if (u.takeWhile Char.isDigit).isEmpty then none
               else some ((digitsToNat (u.takeWhile Char.isDigit) : Int), u.dropWhile Char.isDigit))
            | _ =>
              (if (t.takeWhile Char.isDigit).isEmpty then none
               else some ((digitsToNat (t.takeWhile Char.isDigit) : Int), t.dropWhile Char.isDigit))
          else some (0, l3)
        | [] => some (0, l3)
      match exRes with
      | none => none
      | some (ex, l4) =>
        let v := scalePowTen (mantissaVal ip fp) ex
        some ((if neg then -v else v), l4)

/-- Insert a member into an object under construction: a repeated key
overwrites the earlier value in place, as JS property definition does. -/
def insertMember (acc : List (String × Json)) (k : String) (v : Json) : List (String × Json) :=
  if acc.any (fun kv => kv.1 = k) then
    acc.map (fun kv => if kv.1 = k then (k, v) else kv)
  else acc ++ [(k, v)]

mutual

/-- One JSON value (fuel-indexed recursive descent; the fuel passed by
`jsonParse` strictly dominates the nesting depth of its input). -/
def parseVal : Nat → List Char → Option (Json × List Char)
  | 0, _ => none
  | fuel + 1, l =>
    let l1 := skipWs l
    if (String.toList "null").isPrefixOf l1 then some (Json.null, l1.drop 4)
    else if (String.toList "true").isPrefixOf l1 then some (Json.bool true, l1.drop 4)
    else if (String.toList "false").isPrefixOf l1 then some (Json.bool false, l1.drop 5)
    else
      match l1 with
      | [] => none
      | c :: r =>
        if c = '"' then
          match parseStrBody r [] with
          | some (s, r2) => some (Json.str s, r2)
          | none => none
        else if c = '[' then
          match skipWs r with
          | ']' :: r2 => some (Json.arr [], r2)
          | _ =>
            match parseElems fuel r [] with
            | some (xs, r2) => some (Json.arr xs, r2)
            | none => none
        else if c = lbrace then
          match skipWs r with
          | d :: r2 =>
            if d = rbrace then some (Json.obj [], r2)
            else
              match parseMembers fuel r [] with
              | some (kvs, r2') => some (Json.obj kvs, r2')
              | none => none
          | [] => none
        else
          match parseNumJson l1 with
          | some (q, r2) => some (Json.num q, r2)
          | none => none

/-- Comma-separated array elements up to the closing bracket. -/
def parseElems : Nat → List Char → List Json → Option (List Json × List Char)
  | 0, _, _ => none
  | fuel + 1, l, acc =>
    match parseVal fuel l with
    | none => none
    | some (v, r) =>
      match skipWs r with
      | ',' :: r2 => parseElems fuel r2 (acc ++ [v])
      | ']' :: r2 => some (acc ++ [v], r2)
      | _ => none

/-- Comma-separated object members up to the closing brace. -/
def parseMembers : Nat → List Char → List (String × Json) → Option (List (String × Json) × List Char)
  | 0, _, _ => none
  | fuel + 1, l, acc =>
    match skipWs l with
    | c :: r =>
      if c = '"' then
        match parseStrBody r [] with
        | none => none
        | some (k, r2) =>
          match skipWs r2 with
          | ':' :: r3 =>
            match parseVal fuel r3 with
            | none => none
            | some (v, r4) =>
              match skipWs r4 with
              | d :: r5 =>
                if d = ',' then parseMembers fuel r5 (insertMember acc k v)
                else if d = rbrace then some (insertMember acc k v, r5)
                else none
              | [] => none
          | _ => none
      else none
    | [] => none

end

/-- Model of the builtin `JSON.parse`: `none` is a thrown SyntaxError. -/
def jsonParse (s : String) : Option Json :=
  match parseVal (4 * s.length + 16) s.toList with
  | some (j, r) => if skipWs r = [] then some j else none
  | none => none

/-- The seven characters of the opening fence tag of the regex
(three backticks then `json`). -/
def fenceTag : List Char := [btick, btick, btick, 'j', 's', 'o', 'n']

/-- Three backticks. -/
def tripleTick : List Char := [btick, btick, btick]

/-- Characters before the first occurrence of three consecutive backticks,
or `none` when there is none. -/
def splitAtTriple : List Char → Option (List Char)
  | [] => none
  | c :: rest =>
    if tripleTick.isPrefixOf (c :: rest) then some []
    else
      match splitAtTriple rest with
      | some before => some (c :: before)
      | none => none

/-- Drop a trailing run of `\s` characters. -/
def trimWsSuffix (l : List Char) : List Char :=
  (l.reverse.dropWhile jsWhitespace).reverse

/-- Scan for the first position where the fenced-block regex matches and
return the capture group. -/
def fenceAux : List Char → Option String
  | [] => none
  | c :: rest =>
    if fenceTag.isPrefixOf (c :: rest) then
      match splitAtTriple (((c :: rest).drop 7).dropWhile jsWhitespace) with
      | some before => some (String.mk (trimWsSuffix before))
      | none => fenceAux rest
    else fenceAux rest

/-- Capture group of the first match of the regex
triple-backtick `json` `\s*([\s\S]*?)\s*` triple-backtick
against `s` (app.js lines 279 and 346): at the first opening tag followed
by a later closing triple backtick, the lazy group takes the text between
them with surrounding `\s` runs absorbed by the greedy and lazy context. -/
def fenceMatch (s : String) : Option String := fenceAux s.toList

/-- Substring containment of `needle` in a character list
(`String.prototype.includes`). -/
def listHasSub (needle : List Char) : List Char → Bool
  | [] => needle.isEmpty
  | c :: rest => needle.isPrefixOf (c :: rest) || listHasSub needle rest

/-- Substring test `hay.includes(sub)`. -/
def hasSub (hay sub : String) : Bool := listHasSub sub.toList hay.toList

/-- Consume an expected literal prefix. -/
def dropLit (lit l : List Char) : Option (List Char) :=
  if lit.isPrefixOf l then some (l.drop lit.length) else none

/-- Consume an expected literal prefix, comparing case-insensitively. -/
def dropLitCI (lit l : List Char) : Option (List Char) :=
  if (lit.map Char.toLower).isPrefixOf (l.map Char.toLower) then some (l.drop lit.length) else none

/-- The number token `\d+(?:\.\d+)?` of the two score regexes: greedy
digits, then an optional dot-digits part (dropped, as the regex engine
backtracks, when no digit follows the dot). -/
def matchNumTok (l : List Char) : Option (List Char) :=
  let d1 := l.takeWhile Char.isDigit
  if d1.isEmpty then none
  else
    match l.dropWhile Char.isDigit with
    | '.' :: r2 =>
      let d2 := r2.takeWhile Char.isDigit
      if d2.isEmpty then some d1 else some (d1 ++ '.' :: d2)
    | _ => some d1

/-- Attempt of the regex `"score"\s*:\s*"?(\d+(?:\.\d+)?)"?` at one
position; returns the capture group. -/
def pat1At (l : List Char) : Option String :=
  match dropLit (String.toList "\"score\"") l with
  | none => none
  | some r1 =>
    match dropLit [':'] (r1.dropWhile jsWhitespace) with
    | none => none
    | some r3 =>
      let r4 := r3.dropWhile jsWhitespace
      match r4 with
      | '"' :: t => (matchNumTok t).map String.mk
      | _ => (matchNumTok r4).map String.mk

/-- Attempt of the regex `score:\s*(\d+(?:\.\d+)?)` (case-insensitive) at
one position; returns the capture group. -/
def pat2At (l : List Char) : Option String :=
  match dropLitCI (String.toList "score:") l with
  | none => none
  | some r1 => (matchNumTok (r1.dropWhile jsWhitespace)).map String.mk

/-- Leftmost match of a position-wise matcher. -/
def scanFirst (f : List Char → Option String) : List Char → Option String
  | [] => f []
  | c :: rest =>
    match f (c :: rest) with
    | some m => some m
    | none => scanFirst f rest

/-- First capture of `/"score"\s*:\s*"?(\d+(?:\.\d+)?)"?/` on `s`
(app.js line 314). -/
def pat1Match (s : String) : Option String := scanFirst pat1At s.toList

/-- First capture of `/score:\s*(\d+(?:\.\d+)?)/i` on `s`
(app.js line 315). -/
def pat2Match (s : String) : Option String := scanFirst pat2At s.toList

/-- Fenced-block decode attempt: fence capture, then `JSON.parse` of it. -/
def fenceJson (s : String) : Option Json :=
  (fenceMatch s).bind jsonParse

/-- The key inspection shared by strategies 1 and 2 of `extractScore`
(app.js lines 283-288 and 295-300): on a parsed value, read
`overall_score`, else `score`, and normalize; `none` means fall through.
Property access on a parsed `null` throws, and the enclosing catch turns
that into the same fall-through. -/
def keyLookup (j : Json) : Option CanonicalScore :=
  match j with
  | Json.null => none
  | _ =>
    match jsGetProp j "overall_score" with
    | some v => some (normalizeScoreValue (some v))
    | none =>
      match jsGetProp j "score" with
      | some v => some (normalizeScoreValue (some v))
      | none => none

/-- Strategies 3 and 4 of `extractScore` (app.js lines 303-325): literal
pass/fail substring search on the lowercased text, then the two numeric
regexes in order, else null. -/
def strategy34 (s : String) : CanonicalScore :=
  let lower := strToLower s
  if hasSub lower "\"overall_score\": \"pass\"" || hasSub lower "\"overall_score\":\"pass\"" then
    CanonicalScore.pass
  else if hasSub lower "\"overall_score\": \"fail\"" || hasSub lower "\"overall_score\":\"fail\"" then
    CanonicalScore.fail
  else
    match pat1Match s with
    | some m => CanonicalScore.num ((jsParseFloat m).getD 0)
    | none =>
      match pat2Match s with
      | some m => CanonicalScore.num ((jsParseFloat m).getD 0)
      | none => CanonicalScore.unknown

/-- ScoreExtractor on a string input: the ordered fallback chain of
`extractScore` (app.js lines 278-325). -/
def extractScoreStr (s : String) : CanonicalScore :=
  match (fenceJson s).bind keyLookup with
  | some c => c
  | none =>
    match (jsonParse s).bind keyLookup with
    | some c => c
    | none => strategy34 s

/-- ScoreExtractor: `extractScore` (app.js lines 275-326).  A falsy input
returns null immediately; a truthy non-string input reaches
`response.match(...)` outside any try block, where calling the undefined
`match` property throws a TypeError (`.error ()`). -/
def extractScore (response : Option Json) : Except Unit CanonicalScore :=
  if jsTruthyOpt response then
    match response with
    | some (Json.str s) => Except.ok (extractScoreStr s)
    | _ => Except.error ()
  else Except.ok CanonicalScore.unknown

/-- StructuredResponseParser: `parseResponseJSON` (app.js lines 341-354).
The returned `Json.null` is the JS `null` that callers treat as the
absent result. -/
def parseResponseJSON (response : Option Json) : Json :=
  match response with
  | none => Json.null
  | some j =>
    if jsTruthy j then
      match j with
      | Json.obj _ => j
      | Json.arr _ => j
      | Json.str s => (jsonParse ((fenceMatch s).getD s)).getD Json.null
      | _ => Json.null
    else Json.null

/-- Field pull of `overall_pass` (app.js line 358): kept only when
literally boolean-typed, else null (`none`). -/
def overallPassOf (data : Json) : Option Bool :=
  match jsGetProp data "overall_pass" with
  | some (Json.bool b) => some b
  | _ => none

/-- Field pull of `flags` (app.js line 360): kept only when an array,
else empty. -/
def flagsOf (data : Json) : List Json :=
  match jsGetProp data "flags" with
  | some (Json.arr xs) => xs
  | _ => []

/-- Underscore-to-space step of `formatLabel` (app.js line 451). -/
def replaceUnderscores (s : String) : String :=
  String.mk (s.toList.map (fun c => if c = '_' then ' ' else c))

/-- The regex word character class `\w`. -/
def isWordChar (c : Char) : Bool := c.isAlphanum || c = '_'

/-- Uppercase every character standing at a `\b\w` position (start of text
or preceded by a non-word character); the Boolean argument records whether
the previous character was a word character. -/
def titlecaseAux : Bool → List Char → List Char
  | _, [] => []
  | prevWord, c :: rest =>
    (if isWordChar c && !prevWord then c.toUpper else c) :: titlecaseAux (isWordChar c) rest

/-- Label derivation `formatLabel` (app.js lines 449-453). -/
def formatLabel (s : String) : String :=
  String.mk (titlecaseAux false (replaceUnderscores s).toList)

/-- A canonical-array-index property key: `"0"`, or digits without a
leading zero whose value is below 2^32 - 1. -/
def isArrayIndexStr (s : String) : Bool :=
  match s.toList with
  | [] => false
  | c :: rest =>
    (c :: rest).all Char.isDigit
    && (if c = '0' then rest.isEmpty else true)
    && decide (digitsToNat (c :: rest) < 4294967295)

/-- Insert one index-keyed member into a list sorted by numeric key. -/
def insertSorted (kv : String × Json) : List (String × Json) → List (String × Json)
  | [] => [kv]
  | h :: t =>
    if digitsToNat kv.1.toList < digitsToNat h.1.toList then kv :: h :: t
    else h :: insertSorted kv t

/-- Sort index-keyed members by ascending numeric key. -/
def sortIdx : List (String × Json) → List (String × Json)
  | [] => []
  | h :: t => insertSorted h (sortIdx t)

/-- Enumeration order of `Object.entries` over an object: canonical
array-index keys first in ascending numeric order, then the remaining
string keys in property insertion order (ECMAScript OrdinaryOwnPropertyKeys). -/
def jsEntries (kvs : List (String × Json)) : List (String × Json) :=
  sortIdx (kvs.filter (fun kv => isArrayIndexStr kv.1))
    ++ kvs.filter (fun kv => !(isArrayIndexStr kv.1))

/-- Entries `Object.entries(data)` for any value the parser can produce: objects
enumerate their members, arrays and strings enumerate index entries,
primitives have none. -/
def jsEntriesOf (data : Json) : List (String × Json) :=
  match data with
  | Json.obj kvs => jsEntries kvs
  | Json.arr xs => (List.enum xs).map (fun p => (toString p.1, p.2))
  | Json.str s => (List.enum s.toList).map (fun p => (toString p.1, Json.str (String.mk [p.2])))
  | _ => []

/-- One row of the metric table (the data content of a metric card;
HTML-only extras are not modelled). -/
structure MetricResult where
  key : String
  label : String
  score : CanonicalScore
deriving DecidableEq

/-- The reserved top-level keys excluded from the metric table
(app.js line 368). -/
def reservedKeys : List String := ["overall_score", "overall_pass", "summary", "flags"]

/-- The second filter of the metric rows (app.js line 369):
`value && typeof value === 'object' && !Array.isArray(value) &&
value.score !== undefined`. -/
def isMetricValue (v : Json) : Bool :=
  match v with
  | Json.obj _ => (jsGetProp v "score").isSome
  | _ => false

/-- The row builder of the metric map step (app.js lines 370-375). -/
def mkMetricResult (kv : String × Json) : MetricResult :=
  ⟨kv.1, formatLabel kv.1, normalizeScoreValue (jsGetProp kv.2 "score")⟩

/-- MetricTableBuilder: the `metricRows` pipeline of `renderEvaluationView`
(app.js lines 367-376): entries, two filters, map. -/
def metricsOf (data : Json) : List MetricResult :=
  (((jsEntriesOf data).filter (fun kv => !(reservedKeys.contains kv.1))).filter
      (fun kv => isMetricValue kv.2)).map mkMetricResult

/-- A metric row as §4.4 of the spec words it: keep an own entry exactly
when its key is outside the reserved set and its value is a non-array,
non-null object containing a `score` field; normalize the score with
ScoreNormalizer and derive the label by replacing underscores with spaces
and title-casing each word. -/
def specMetricResult (kv : String × Json) : Option MetricResult :=
  if reservedKeys.contains kv.1 then none
  else
    match kv.2 with
    | Json.obj fields =>
      match lookupMember fields "score" with
      | some sv => some ⟨kv.1, formatLabel kv.1, normalizeScoreValue (some sv)⟩
      | none => none
    | _ => none

/-- The response value `renderScoreSummary` feeds to the extractor
(app.js line 227): `result ? (result.response || result) : null`. -/
def summaryResponse (result : Option Json) : Option Json :=
  match result with
  | some j => if jsTruthy j then jsOr (jsGetProp j "response") (some j) else some Json.null
  | none => some Json.null

/-- The score text of one on-screen summary card (app.js lines 227-235):
`formatScore(extractScore(response))`. -/
def summaryCell (result : Option Json) : Except Unit String :=
  (extractScore (summaryResponse result)).map formatScore

/-- Optional chaining `result?.response`. -/
def optChainProp (result : Option Json) (k : String) : Option Json :=
  match result with
  | none => none
  | some Json.null => none
  | some j => jsGetProp j k

/-- The response value `handleDownloadCsv` feeds to the extractor
(app.js line 511): `result?.response || result || ''`. -/
def csvResponse (result : Option Json) : Option Json :=
  jsOr (jsOr (optChainProp result "response") result) (some (Json.str ""))

/-- The score text of one CSV cell (app.js lines 511-512):
`formatScore(extractScore(...))`. -/
def csvCell (result : Option Json) : Except Unit String :=
  (extractScore (csvResponse result)).map formatScore

/-- C1: evaluation of `extractScore` at a structured-object input, the
shape `renderScoreSummary` passes when a result has no `response` field:
the call `response.match(...)` throws a TypeError, so the function raises
instead of returning a CanonicalScore. -/
theorem c1_extract_score_object_raises :
    extractScore (some (Json.obj [("overall_score", Json.num (mkRat 21 5))])) = Except.error () := rfl

/-- C2 counterexample: on the string `3.5 out of 5`, which is not wholly a
number, `normalizeScoreValue` returns `Numeric(3.5)` rather than the
`Unknown` the claim requires, because `parseFloat` parses a numeric
prefix. -/
theorem c2_counterexample :
    normalizeScoreValue (some (Json.str "3.5 out of 5")) = CanonicalScore.num (mkRat 7 2)
      ∧ CanonicalScore.num (mkRat 7 2) ≠ CanonicalScore.unknown := by
  exact ⟨rfl, by decide⟩

/-- C2 amended: for a string that is not a case-insensitive exact match of
pass or fail, the result is `Numeric(v)` exactly when `parseFloat` recovers
`v` from a leading numeric prefix of the string (optional whitespace and
sign, then a decimal literal), and `Unknown` exactly when no such prefix
exists; trailing non-numeric text after the prefix is ignored, not a
failure. -/
theorem c2_amended_normalize (s : String)
    (h1 : strToLower s ≠ "pass") (h2 : strToLower s ≠ "fail") :
    (∀ v : ℚ, normalizeScoreValue (some (Json.str s)) = CanonicalScore.num v ↔ jsParseFloat s = some v)
      ∧ (normalizeScoreValue (some (Json.str s)) = CanonicalScore.unknown ↔ jsParseFloat s = none) := by
  simp only [normalizeScoreValue, if_neg h1, if_neg h2]
  cases h : jsParseFloat s with
  | none => simp
  | some v => simp

/-- C2 witness: the amended statement evaluated at `3.5 out of 5`. -/
theorem c2_witness :
    (strToLower "3.5 out of 5" ≠ "pass" ∧ strToLower "3.5 out of 5" ≠ "fail"
        ∧ jsParseFloat "3.5 out of 5" = some (mkRat 7 2))
      ∧ normalizeScoreValue (some (Json.str "3.5 out of 5")) = CanonicalScore.num (mkRat 7 2) :=
  ⟨⟨by decide, by decide, rfl⟩,
    ((c2_amended_normalize "3.5 out of 5" (by decide) (by decide)).1 (mkRat 7 2)).mpr rfl⟩

/-- C8: ScoreExtractor and StructuredResponseParser are pure functions of
their input in this embedding — the source functions read no mutable
state, so two invocations on the identical input are identical results. -/
theorem c8_pure_deterministic (x : Option Json) :
    extractScore x = extractScore x ∧ parseResponseJSON x = parseResponseJSON x :=
  ⟨rfl, rfl⟩

/-- C10: `normalizeScoreValue` maps every boolean, array, and object input
to `Unknown`, so it is total over all JSON-typed values. -/
theorem c10_normalize_total (b : Bool) (xs : List Json) (kvs : List (String × Json)) :
    normalizeScoreValue (some (Json.bool b)) = CanonicalScore.unknown
      ∧ normalizeScoreValue (some (Json.arr xs)) = CanonicalScore.unknown
      ∧ normalizeScoreValue (some (Json.obj kvs)) = CanonicalScore.unknown :=
  ⟨rfl, rfl, rfl⟩

/-- C5: a numeric score presents as the gradient bucket with the label
`v.toFixed(1)` and a color hue of `clamp(v, 0, 5) / 5 * 120`; clamping
touches only the color, so `Numeric(7)` gets hue 120 (the same style as
`Numeric(5)`) while its label stays `7.0`. -/
theorem c5_presentation_numeric (v : ℚ) :
    getScoreClass (CanonicalScore.num v) = "score-gradient"
      ∧ formatScore (CanonicalScore.num v) = jsToFixed1 v
      ∧ scoreHue v = max 0 (min 5 v) / 5 * 120
      ∧ scoreHue 7 = 120
      ∧ formatScore (CanonicalScore.num 7) = "7.0"
      ∧ getScoreStyle (CanonicalScore.num 7) = getScoreStyle (CanonicalScore.num 5)
      ∧ formatScore (CanonicalScore.num 7) ≠ formatScore (CanonicalScore.num 5) := by
  refine ⟨rfl, rfl, rfl, by norm_num [scoreHue], rfl, ?_, by decide⟩
  show getScoreStyle (CanonicalScore.num 7) = getScoreStyle (CanonicalScore.num 5)
  rfl

/-- C3 counterexample: the string made of a quote, three backticks, `json
bad `, three backticks and a quote is itself valid JSON (a JSON string
literal) while containing a fenced json block whose contents `bad` do not
parse; the claim then requires the whole-string decode, but
`parseResponseJSON` returns the absent result, because a found fence
preempts the whole-string parse. -/
theorem c3_counterexample :
    parseResponseJSON (some (Json.str "\"```json bad ```\"")) = Json.null
      ∧ jsonParse "\"```json bad ```\"" = some (Json.str "```json bad ```")
      ∧ fenceMatch "\"```json bad ```\"" = some "bad" ∧ jsonParse "bad" = none :=
  ⟨rfl, rfl, rfl, rfl⟩

/-- C3 amended: when a fenced json block is found, only its contents are
given to `JSON.parse`; if that parse fails the parser returns the absent
result without attempting the whole string.  The whole-string parse
happens only when no fence is found. -/
theorem c3_amended_fence_preempts (s c : String)
    (h1 : fenceMatch s = some c) (h2 : jsonParse c = none) :
    parseResponseJSON (some (Json.str s)) = Json.null := by
  simp [parseResponseJSON, jsTruthy, h1, h2]

/-- C3 witness: the amended statement evaluated on a fence with
unparseable contents embedded in surrounding prose. -/
theorem c3_witness :
    (fenceMatch "x ```json bad ``` y" = some "bad" ∧ jsonParse "bad" = none)
      ∧ parseResponseJSON (some (Json.str "x ```json bad ``` y")) = Json.null :=
  ⟨⟨rfl, rfl⟩, c3_amended_fence_preempts "x ```json bad ``` y" "bad" rfl rfl⟩

/-- C4: on a string where the fenced block (if any) does not parse, the
whole string does not parse as JSON, none of the four case-insensitive
`overall_score` pass/fail literals occurs, and neither numeric score regex
matches, `extractScore` returns Unknown (null). -/
theorem c4_exhausted_unknown (s : String)
    (h1 : fenceJson s = none)
    (h2 : jsonParse s = none)
    (h3 : hasSub (strToLower s) "\"overall_score\": \"pass\"" = false)
    (h4 : hasSub (strToLower s) "\"overall_score\":\"pass\"" = false)
    (h5 : hasSub (strToLower s) "\"overall_score\": \"fail\"" = false)
    (h6 : hasSub (strToLower s) "\"overall_score\":\"fail\"" = false)
    (h7 : pat1Match s = none)
    (h8 : pat2Match s = none) :
    extractScore (some (Json.str s)) = Except.ok CanonicalScore.unknown := by
  have hchain : extractScoreStr s = CanonicalScore.unknown := by
    simp [extractScoreStr, strategy34, h1, h2, h3, h4, h5, h6, h7, h8]
  simp [extractScore, jsTruthyOpt, jsTruthy, hchain]

/-- C4 witness: the theorem evaluated on plain prose. -/
theorem c4_witness :
    (fenceJson "nothing to see" = none ∧ jsonParse "nothing to see" = none
        ∧ hasSub (strToLower "nothing to see") "\"overall_score\": \"pass\"" = false
        ∧ hasSub (strToLower "nothing to see") "\"overall_score\":\"pass\"" = false
        ∧ hasSub (strToLower "nothing to see") "\"overall_score\": \"fail\"" = false
        ∧ hasSub (strToLower "nothing to see") "\"overall_score\":\"fail\"" = false
        ∧ pat1Match "nothing to see" = none ∧ pat2Match "nothing to see" = none)
      ∧ extractScore (some (Json.str "nothing to see")) = Except.ok CanonicalScore.unknown :=
  ⟨⟨rfl, rfl, rfl, rfl, rfl, rfl, rfl, rfl⟩,
    c4_exhausted_unknown "nothing to see" rfl rfl rfl rfl rfl rfl rfl rfl⟩

/-- C6: on a decoded object, `overall_pass` is kept (as `some b`) exactly
when the field is literally boolean-typed, and is null (`none`) for every
other value — in particular for the strings `true` / `false` and for
numbers; `flags` is kept exactly when the field is an array and is the
empty sequence for every non-array value. -/
theorem c6_pass_flags_typing (kvs : List (String × Json)) :
    (∀ b, overallPassOf (Json.obj kvs) = some b ↔ lookupMember kvs "overall_pass" = some (Json.bool b))
      ∧ (∀ xs, lookupMember kvs "flags" = some (Json.arr xs) → flagsOf (Json.obj kvs) = xs)
      ∧ ((∀ xs, lookupMember kvs "flags" ≠ some (Json.arr xs)) → flagsOf (Json.obj kvs) = [])
      ∧ overallPassOf (Json.obj [("overall_pass", Json.str "true")]) = none
      ∧ overallPassOf (Json.obj [("overall_pass", Json.str "false")]) = none
      ∧ overallPassOf (Json.obj [("overall_pass", Json.num 1)]) = none := by
  refine ⟨?_, ?_, ?_, rfl, rfl, rfl⟩
  · intro b
    simp only [overallPassOf, jsGetProp]
    cases h : lookupMember kvs "overall_pass" with
    | none => simp
    | some v => cases v <;> simp
  · intro xs h
    simp only [flagsOf, jsGetProp, h]
  · intro hno
    simp only [flagsOf, jsGetProp]

/-- C6 witness: the theorem evaluated on a concrete object holding a
boolean `overall_pass` and an array `flags`, and on one holding a numeric
`flags`. -/
theorem c6_witness :
    overallPassOf (Json.obj [("overall_pass", Json.bool true), ("flags", Json.arr [Json.str "a"])]) = some true
      ∧ flagsOf (Json.obj [("overall_pass", Json.bool true), ("flags", Json.arr [Json.str "a"])]) = [Json.str "a"]
      ∧ flagsOf (Json.obj [("flags", Json.num 3)]) = [] :=
  ⟨((c6_pass_flags_typing [("overall_pass", Json.bool true), ("flags", Json.arr [Json.str "a"])]).1 true).mpr rfl,
    (c6_pass_flags_typing [("overall_pass", Json.bool true), ("flags", Json.arr [Json.str "a"])]).2.1 [Json.str "a"] rfl,
    (c6_pass_flags_typing [("flags", Json.num 3)]).2.2.1 (fun _ h => Json.noConfusion (Option.some.inj h))⟩

/-- C7 counterexample: a decoded object whose insertion order lists
`zeta_metric` before the array-index-like key `1` (both metric-shaped)
produces its rows with `1` first, because `Object.entries` enumerates
integer-like keys first in numeric order; so the rows are not in insertion
order. -/
theorem c7_counterexample :
    metricsOf (Json.obj [("zeta_metric", Json.obj [("score", Json.num 3)]),
        ("1", Json.obj [("score", Json.num 4)])])
      = [⟨"1", "1", CanonicalScore.num 4⟩, ⟨"zeta_metric", "Zeta Metric", CanonicalScore.num 3⟩]
      ∧ (metricsOf (Json.obj [("zeta_metric", Json.obj [("score", Json.num 3)]),
          ("1", Json.obj [("score", Json.num 4)])])).map MetricResult.key
        ≠ ["zeta_metric", "1"] :=
  ⟨rfl, by decide⟩

/-- C7 amended: on a decoded object, the metric rows are exactly the
entries, in `Object.entries` enumeration order (array-index-like keys
first ascending, then the remaining keys in insertion order), whose key is
outside the reserved set and whose value is a non-array, non-null object
containing a `score` field, each carrying the ScoreNormalizer-normalized
score and the underscores-to-spaces title-cased label; for objects without
array-index-like keys this coincides with insertion order. -/
theorem c7_metric_rows (kvs : List (String × Json)) :
    metricsOf (Json.obj kvs) = (jsEntries kvs).filterMap specMetricResult := by
  show (((jsEntries kvs).filter (fun kv => !(reservedKeys.contains kv.1))).filter
      (fun kv => isMetricValue kv.2)).map mkMetricResult = (jsEntries kvs).filterMap specMetricResult
  induction jsEntries kvs with
  | nil => rfl
  | cons kv t ih =>
    rw [List.filterMap_cons, List.filter_cons]
    by_cases hr : kv.1 ∈ reservedKeys
    · have hd : specMetricResult kv = none := by simp [specMetricResult, hr]
      rw [hd, if_neg (by simp [hr]), ih]
    · rw [if_pos (by simp [hr]), List.filter_cons]
      cases hv : kv.2 with
      | obj fields =>
        cases hs : lookupMember fields "score" with
        | some sv =>
          have hm : isMetricValue (Json.obj fields) = true := by
            simp [isMetricValue, jsGetProp, hs]
          have hd : specMetricResult kv
              = some ⟨kv.1, formatLabel kv.1, normalizeScoreValue (some sv)⟩ := by
            simp [specMetricResult, hr, hv, hs]
          have hmk : mkMetricResult kv
              = ⟨kv.1, formatLabel kv.1, normalizeScoreValue (some sv)⟩ := by
            simp [mkMetricResult, hv, jsGetProp, hs]
          rw [if_pos hm, hd, List.map_cons, ih, hmk]
        | none =>
          have hm : isMetricValue (Json.obj fields) = false := by
            simp [isMetricValue, jsGetProp, hs]
          have hd : specMetricResult kv = none := by simp [specMetricResult, hr, hv, hs]
          rw [if_neg (by simp [hm]), hd, ih]
      | null =>
        have hd : specMetricResult kv = none := by simp [specMetricResult, hr, hv]
        rw [if_neg (by simp [isMetricValue]), hd, ih]
      | bool b =>
        have hd : specMetricResult kv = none := by simp [specMetricResult, hr, hv]
        rw [if_neg (by simp [isMetricValue]), hd, ih]
      | num q =>
        have hd : specMetricResult kv = none := by simp [specMetricResult, hr, hv]
        rw [if_neg (by simp [isMetricValue]), hd, ih]
      | str s =>
        have hd : specMetricResult kv = none := by simp [specMetricResult, hr, hv]
        rw [if_neg (by simp [isMetricValue]), hd, ih]
      | arr xs =>
        have hd : specMetricResult kv = none := by simp [specMetricResult, hr, hv]
        rw [if_neg (by simp [isMetricValue]), hd, ih]

/-- C9: for every per-dimension result value (including an absent one),
the score text of the CSV cell equals the score text of the on-screen
summary card: the two call sites feed `formatScore` after `extractScore`
with arguments that agree whenever they matter. -/
theorem c9_csv_matches_summary (result : Option Json) :
    summaryCell result = csvCell result := by
  match result with
  | none => rfl
  | some Json.null => rfl
  | some (Json.bool b) => cases b <;> rfl
  | some (Json.num q) =>
    by_cases hq : q = 0
    · subst hq; rfl
    · simp [summaryCell, csvCell, summaryResponse, csvResponse, optChainProp, jsOr,
        jsTruthyOpt, jsTruthy, jsGetProp, hq]
  | some (Json.str s) =>
    by_cases hs : s = ""
    · subst hs; rfl
    · simp [summaryCell, csvCell, summaryResponse, csvResponse, optChainProp, jsOr,
        jsTruthyOpt, jsTruthy, jsGetProp, hs]
  | some (Json.arr xs) => rfl
  | some (Json.obj kvs) =>
    have hpad : csvResponse (some (Json.obj kvs))
        = jsOr (lookupMember kvs "response") (some (Json.obj kvs)) := by
      show jsOr (jsOr (lookupMember kvs "response") (some (Json.obj kvs))) (some (Json.str ""))
          = jsOr (lookupMember kvs "response") (some (Json.obj kvs))
      unfold jsOr
      cases ta : jsTruthyOpt (lookupMember kvs "response")
      · simp [ta, jsTruthyOpt, jsTruthy]
      · simp [ta]
    show (extractScore (summaryResponse (some (Json.obj kvs)))).map formatScore
        = (extractScore (csvResponse (some (Json.obj kvs)))).map formatScore
    rw [hpad]
    rfl
end QualityEval
